import Mathlib

/-!
Shallow embedding of `webargs/core.py`: the `Arg` value contract and the
`Parser` multi-target resolution engine.

Python values that flow through the resolver are modelled by the inductive
type `Value`; Python's `None` is the constructor `Value.none`.  Python
exceptions are modelled by the inductive type `Exc`; a Python function that
may raise is embedded as a Lean function returning `Except Exc _`.

Calls into the pluggable fetch capabilities (`parse_json`,
`parse_querystring`, ... and custom targets registered in `TARGET_MAP`) are
observable side effects of the resolver; the embedding threads an explicit
invocation log (`List String` of target names, in call order) through every
function so that "this fetch capability is never invoked" claims are
expressible.
-/

namespace Webargs

/-- A Python value as used by `webargs.core`: `None`, booleans, ints,
strings, lists and sets.  A Python `set` is modelled as a duplicate-free
list (`Value.vset`). -/
inductive Value where
  | none
  | bool (b : Bool)
  | int (n : Int)
  | str (s : String)
  | list (xs : List Value)
  | vset (xs : List Value)

mutual

/-- Structural equality test on embedded Python values. -/
def Value.beq : Value → Value → Bool
  | .none, .none => true
  | .bool a, .bool b => a == b
  | .int a, .int b => a == b
  | .str a, .str b => a == b
  | .list xs, .list ys => Value.beqList xs ys
  | .vset xs, .vset ys => Value.beqList xs ys
  | _, _ => false

/-- Structural equality test on lists of embedded Python values. -/
def Value.beqList : List Value → List Value → Bool
  | [], [] => true
  | x :: xs, y :: ys => Value.beq x y && Value.beqList xs ys
  | _, _ => false

end

mutual

theorem Value.beq_iff : ∀ a b : Value, Value.beq a b = true ↔ a = b
  | .none, .none => by simp [Value.beq]
  | .none, .bool _ => by simp [Value.beq]
  | .none, .int _ => by simp [Value.beq]
  | .none, .str _ => by simp [Value.beq]
  | .none, .list _ => by simp [Value.beq]
  | .none, .vset _ => by simp [Value.beq]
  | .bool _, .none => by simp [Value.beq]
  | .bool _, .bool _ => by simp [Value.beq]
  | .bool _, .int _ => by simp [Value.beq]
  | .bool _, .str _ => by simp [Value.beq]
  | .bool _, .list _ => by simp [Value.beq]
  | .bool _, .vset _ => by simp [Value.beq]
  | .int _, .none => by simp [Value.beq]
  | .int _, .bool _ => by simp [Value.beq]
  | .int _, .int _ => by simp [Value.beq]
  | .int _, .str _ => by simp [Value.beq]
  | .int _, .list _ => by simp [Value.beq]
  | .int _, .vset _ => by simp [Value.beq]
  | .str _, .none => by simp [Value.beq]
  | .str _, .bool _ => by simp [Value.beq]
  | .str _, .int _ => by simp [Value.beq]
  | .str _, .str _ => by simp [Value.beq]
  | .str _, .list _ => by simp [Value.beq]
  | .str _, .vset _ => by simp [Value.beq]
  | .list _, .none => by simp [Value.beq]
  | .list _, .bool _ => by simp [Value.beq]
  | .list _, .int _ => by simp [Value.beq]
  | .list _, .str _ => by simp [Value.beq]
  | .list xs, .list ys => by simp [Value.beq, Value.beqList_iff xs ys]
  | .list _, .vset _ => by simp [Value.beq]
  | .vset _, .none => by simp [Value.beq]
  | .vset _, .bool _ => by simp [Value.beq]
  | .vset _, .int _ => by simp [Value.beq]
  | .vset _, .str _ => by simp [Value.beq]
  | .vset _, .list _ => by simp [Value.beq]
  | .vset xs, .vset ys => by simp [Value.beq, Value.beqList_iff xs ys]

theorem Value.beqList_iff : ∀ xs ys : List Value, Value.beqList xs ys = true ↔ xs = ys
  | [], [] => by simp [Value.beqList]
  | [], _ :: _ => by simp [Value.beqList]
  | _ :: _, [] => by simp [Value.beqList]
  | x :: xs, y :: ys => by
    simp [Value.beqList, Value.beq_iff x y, Value.beqList_iff xs ys]

end

instance : DecidableEq Value := fun a b =>
  decidable_of_iff (Value.beq a b = true) (Value.beq_iff a b)

/-- Python truthiness (`bool(v)`) for the embedded values: `None`, `False`,
`0`, `""` and empty containers are falsy. -/
def Value.truthy : Value → Bool
  | .none => false
  | .bool b => b
  | .int n => n != 0
  | .str s => !s.isEmpty
  | .list xs => !xs.isEmpty
  | .vset xs => !xs.isEmpty

/-- The test `isinstance(value, list) and len(value)`: the "usable multi-value"
test from `Parser.parse_arg`. -/
def isNonEmptyList : Value → Bool
  | .list xs => !xs.isEmpty
  | _ => false

/-- Python exceptions raised by `webargs.core` or by user-supplied
`convert` / `validate` callables.

* `internalConversionError`, `internalValidationError`, `internalInvalidArg`
  are the name-less internal tier raised inside `Arg._validate`;
* `conversionError`, `validationError`, `invalidArg`, `missingArg` are the
  name-attached external tier raised by `Parser`;
* `webargsValueError` is the configuration error class;
* `typeError` models a Python-level `TypeError` (e.g. calling a
  constructor with the wrong number of arguments);
* `userError` is an arbitrary exception raised by user code. -/
inductive Exc where
  | internalConversionError (e : Exc)
  | internalValidationError (e : Exc)
  | internalInvalidArg
  | conversionError (e : Exc) (arg : String)
  | validationError (e : Exc) (arg : String)
  | invalidArg (arg : String)
  | missingArg (arg : String)
  | webargsValueError (arg : Value) (msg : String)
  | typeError (msg : String)
  | userError (v : Value)
  deriving DecidableEq


instance {ε α : Type} [DecidableEq ε] [DecidableEq α] : DecidableEq (Except ε α) := fun
  | .ok a, .ok b => if h : a = b then .isTrue (by rw [h]) else .isFalse (by simp [h])
  | .ok _, .error _ => .isFalse (by simp)
  | .error _, .ok _ => .isFalse (by simp)
  | .error a, .error b => if h : a = b then .isTrue (by rw [h]) else .isFalse (by simp [h])

/-- The `multiple` container kind of an `Arg`: Python `list` or `set`
(`None` is `Option.none` at the use site). -/
inductive Multiple where
  | list
  | set
  deriving DecidableEq


/-- The call `multiple()`: the empty container of the given kind. -/
def Multiple.empty : Multiple → Value
  | .list => .list []
  | .set => .vset []

/-- Embedding of `webargs.core.Arg` after construction.  `convert` and `validate` are
the user callables (possibly raising, hence `Except`); Python's
`validate` returns a truthiness-checked value. -/
structure Arg where
  convert : Value → Except Exc Value
  validate : Value → Except Exc Value
  default : Value
  required : Bool
  multiple : Option Multiple
  allow_missing : Bool
  target : Option String

/-- The default `convert`: no type conversion (`webargs.core.noop`). -/
def noop (x : Value) : Except Exc Value := .ok x

/-- The default `validate`: `lambda x: True`. -/
def alwaysTrue (_ : Value) : Except Exc Value := .ok (.bool true)

/-- Embedding of `Arg.__init__`: fills in the `noop` / always-true defaults for
`convert` and `validate`, replaces a `None` default by an empty container
when `multiple` is set, and rejects `required and allow_missing`.  The
Python checks that `multiple` is `list`, `set` or `None` and that
`convert` / `validate` are callable are enforced by the Lean types. -/
def Arg.make (convert : Option (Value → Except Exc Value)) (default : Value)
    (required : Bool) (validate : Option (Value → Except Exc Value))
    (multiple : Option Multiple) (allow_missing : Bool) (target : Option String) :
    Except Exc Arg :=
  if required && allow_missing then
    .error (.webargsValueError .none
      "required and allow_missing cannot both be True.")
  else
    .ok
      { convert := convert.getD noop
        validate := validate.getD alwaysTrue
        default :=
          match multiple, default with
          | some m, .none => m.empty
          | _, d => d
        required := required
        multiple := multiple
        allow_missing := allow_missing
        target := target }

/-- Embedding of `Arg._validate`: convert then validate one scalar value, wrapping any
exception from the user callables in the corresponding name-less internal
error, and signalling `internalInvalidArg` when `validate` returns a falsy
result without raising. -/
def Arg.run_validate (a : Arg) (value : Value) : Except Exc Value :=
  match a.convert value with
  | .error e => .error (.internalConversionError e)
  | .ok ret =>
    match a.validate ret with
    | .error e => .error (.internalValidationError e)
    | .ok validated => if validated.truthy then .ok ret else .error .internalInvalidArg

/-- The list comprehension `[self._validate(each) for each in value]`:
left to right, the first exception escapes. -/
def Arg.run_validate_list (a : Arg) : List Value → Except Exc (List Value)
  | [] => .ok []
  | x :: xs =>
    match a.run_validate x with
    | .error e => .error e
    | .ok y =>
      match a.run_validate_list xs with
      | .error e => .error e
      | .ok ys => .ok (y :: ys)

/-- Embedding of `Arg.validated`: when `multiple` is set and the input is a list, apply
`_validate` element-wise and rebuild the declared container kind (a Python
`set(...)` collapses duplicates, modelled by `List.dedup`); otherwise
treat the input as a scalar. -/
def Arg.validated (a : Arg) (value : Value) : Except Exc Value :=
  match a.multiple, value with
  | some m, .list xs =>
    match a.run_validate_list xs with
    | .error e => .error e
    | .ok ys =>
      match m with
      | .list => .ok (.list ys)
      | .set => .ok (.vset ys.dedup)
  | _, _ => a.run_validate value

/-- Embedding of `webargs.core.Parser`, parameterised over the request type.  The
string-method indirection of the Python `TARGET_MAP` (target name →
`parse_json` / `parse_querystring` / ... method name or registered
function) is flattened into an association list from target name directly
to the fetch capability; the six base-class methods all return `None`.
`handle_error` and `fallback` are overridable methods, modelled as fields
whose default values are the base-class implementations. -/
structure Parser (Req : Type) where
  TARGET_MAP : List (String × (Req → String → Arg → Value))
  targets : List String
  error_callback : Option (Exc → Except Exc Unit)
  handle_error : Exc → Except Exc Unit
  fallback : Req → String → Arg → Value

/-- Embedding of `Parser.DEFAULT_TARGETS`. -/
def DEFAULT_TARGETS : List String := ["querystring", "form", "json"]

/-- Base-class `Parser.handle_error`: re-raise the error. -/
def defaultHandleError (error : Exc) : Except Exc Unit := .error error

/-- Base-class `Parser.fallback`: return `None`. -/
def defaultFallback {Req : Type} (_ : Req) (_ : String) (_ : Arg) : Value := .none

/-- The base-class `TARGET_MAP`: the six built-in targets, each bound to
the base-class fetch method, which returns `None`. -/
def baseTARGET_MAP {Req : Type} : List (String × (Req → String → Arg → Value)) :=
  [("json", fun _ _ _ => .none),
   ("querystring", fun _ _ _ => .none),
   ("form", fun _ _ _ => .none),
   ("headers", fun _ _ _ => .none),
   ("cookies", fun _ _ _ => .none),
   ("files", fun _ _ _ => .none)]

/-- A base-class `Parser()` over a unit request type. -/
def baseParser : Parser Unit :=
  { TARGET_MAP := baseTARGET_MAP
    targets := DEFAULT_TARGETS
    error_callback := .none
    handle_error := defaultHandleError
    fallback := defaultFallback }

/-- The value produced by `Parser._get_value`: look up the target's fetch
capability in `TARGET_MAP` and call it, or `None` for an unknown target. -/
def Parser.fetchVal {Req : Type} (p : Parser Req) (req : Req) (name : String)
    (argobj : Arg) (target : String) : Value :=
  match p.TARGET_MAP.lookup target with
  | some f => f req name argobj
  | none => .none

/-- Whether a target name has a fetch capability registered in
`TARGET_MAP`. -/
def Parser.isRegistered {Req : Type} (p : Parser Req) (target : String) : Bool :=
  (p.TARGET_MAP.lookup target).isSome

/-- Embedding of `Parser._get_value`, with the invocation log threaded through: when the
target has a registered fetch capability the call is recorded in the log;
an unknown target produces `None` without any capability being invoked. -/
def Parser.get_value {Req : Type} (p : Parser Req) (name : String) (argobj : Arg)
    (req : Req) (target : String) (log : List String) : Value × List String :=
  match p.TARGET_MAP.lookup target with
  | some f => (f req name argobj, log ++ [target])
  | none => (.none, log)

/-- Embedding of `Parser._validated_targets`.  The set of invalid target names is the
requested targets minus the registered target names.  When it is
non-empty the Python source evaluates `WebargsValueError(msg)`, but
`WebargsValueError.__init__(self, arg, msg)` requires two arguments, so
the call itself raises `TypeError` before any `WebargsValueError` is
constructed; the embedding records this as `Exc.typeError`. -/
def Parser.validated_targets {Req : Type} (p : Parser Req) (targets : List String) :
    Except Exc (List String) :=
  let valid_targets := p.TARGET_MAP.map Prod.fst
  let invalid_targets := (targets.filter (fun t => !valid_targets.contains t)).dedup
  if invalid_targets.length != 0 then
    .error (.typeError
      "WebargsValueError.__init__ missing 1 required positional argument: msg")
  else
    .ok targets

/-- The `try/except` around `argobj.validated(value)` in
`Parser.parse_arg`: translate the name-less internal errors into the
name-attached external ones; anything else propagates unchanged. -/
def translateErrors (name : String) (r : Except Exc Value) : Except Exc Value :=
  match r with
  | .error (.internalConversionError e) => .error (.conversionError e name)
  | .error (.internalValidationError e) => .error (.validationError e name)
  | .error .internalInvalidArg => .error (.invalidArg name)
  | r => r

/-- Outcome of the `for target in ...` loop of `Parser.parse_arg`: either
an early `return ret` from inside the loop, or the loop ran to the end
with `value` holding the last value assigned by `_get_value` (the
argument of `exhausted` is the loop variable `value` as left behind). -/
inductive ScanResult where
  | found (ret : Value)
  | exhausted (value : Value)
  deriving DecidableEq

/-- The `for target in self._validated_targets(...)` loop body of
`Parser.parse_arg`, threading the loop variable `value` and the fetch
log.  For each target: fetch; if `multiple` is set and the result is not
a non-empty list, continue; otherwise if the result is not `None`,
convert + validate it (translating internal errors) and return. -/
def Parser.scan {Req : Type} (p : Parser Req) (name : String) (argobj : Arg)
    (req : Req) : List String → Value → List String →
    Except Exc ScanResult × List String
  | [], value, log => (.ok (.exhausted value), log)
  | target :: rest, _, log =>
    let fetched := p.get_value name argobj req target log
    let value := fetched.1
    let log' := fetched.2
    if argobj.multiple.isSome && !(isNonEmptyList value) then
      p.scan name argobj req rest value log'
    else if value = Value.none then
      p.scan name argobj req rest value log'
    else
      ((translateErrors name (argobj.validated value)).map ScanResult.found, log')

/-- The test `if argobj.target:` — the pinned target, taking Python truthiness into
account (an empty-string target is falsy and behaves like no pinned
target). -/
def Arg.pinned (a : Arg) : Option String :=
  match a.target with
  | some t => if t.isEmpty then none else some t
  | none => none

/-- The part of `Parser.parse_arg` from the `for` loop onwards: validate
the requested target names (`targets or self.targets`), scan them
starting from the current `value`, and if the loop completed with `value`
still `None`, apply the default / fallback step and the required-falsy
check. -/
def Parser.parse_arg_scan {Req : Type} (p : Parser Req) (name : String)
    (argobj : Arg) (req : Req) (targets : List String) (value0 : Value)
    (log : List String) : Except Exc Value × List String :=
  match p.validated_targets (if targets.isEmpty then p.targets else targets) with
  | .error e => (.error e, log)
  | .ok ts =>
    match p.scan name argobj req ts value0 log with
    | (.error e, log') => (.error e, log')
    | (.ok (.found ret), log') => (.ok ret, log')
    | (.ok (.exhausted value), log') =>
      if value = Value.none then
        let final := if argobj.default != Value.none then argobj.default
                     else p.fallback req name argobj
        if !final.truthy && argobj.required then (.error (.missingArg name), log')
        else (.ok final, log')
      else (.ok value, log')

/-- Embedding of `Parser.parse_arg`.  If the argument has a (truthy) pinned target,
fetch from it first; a non-`None` pinned value is converted + validated
and returned without the ordered scan ever running.  Otherwise (no pinned
target, or the pinned fetch returned `None`) the ordered scan over the
requested targets runs, followed by the default / fallback / required
logic of `parse_arg_scan`. -/
def Parser.parse_arg {Req : Type} (p : Parser Req) (name : String) (argobj : Arg)
    (req : Req) (targets : List String) (log : List String) :
    Except Exc Value × List String :=
  match argobj.pinned with
  | some t =>
    let fetched := p.get_value name argobj req t log
    let value := fetched.1
    let log' := fetched.2
    if value = Value.none then
      p.parse_arg_scan name argobj req targets value log'
    else
      (translateErrors name (argobj.validated value), log')
  | none =>
    p.parse_arg_scan name argobj req targets Value.none log

/-- The `for argname, argobj in iteritems(argmap)` loop of
`Parser.parse`: resolve each argument in declaration order, skipping
`None` results of `allow_missing` arguments, accumulating the parsed
mapping; the first exception escapes the loop. -/
def Parser.parse_loop {Req : Type} (p : Parser Req) (req : Req)
    (targets : List String) : List (String × Arg) → List (String × Value) →
    List String → Except Exc (List (String × Value)) × List String
  | [], parsed, log => (.ok parsed, log)
  | (argname, argobj) :: rest, parsed, log =>
    match p.parse_arg argname argobj req
        (if targets.isEmpty then p.targets else targets) log with
    | (.error e, log') => (.error e, log')
    | (.ok parsed_value, log') =>
      if parsed_value = Value.none && argobj.allow_missing then
        p.parse_loop req targets rest parsed log'
      else
        p.parse_loop req targets rest (parsed ++ [(argname, parsed_value)]) log'

/-- The `except Exception` clause of `Parser.parse`: route the error to
the registered error callback if any, else to `handle_error`.  If the
handler returns without raising, `parse` falls off the `try` block and
returns Python `None` (modelled as `Option.none`). -/
def Parser.routeError {Req : Type} (p : Parser Req) (error : Exc) :
    Except Exc (Option (List (String × Value))) :=
  match p.error_callback with
  | some cb =>
    match cb error with
    | .ok _ => .ok .none
    | .error e => .error e
  | none =>
    match p.handle_error error with
    | .ok _ => .ok .none
    | .error e => .error e

/-- Embedding of `Parser.parse`: resolve every argument of the map; on success return
the parsed mapping (`some parsed`), and on any exception route it through
`routeError` (so the result is `none`, Python `None`, when the handler
swallows the error, or the handler's exception otherwise). -/
def Parser.parse {Req : Type} (p : Parser Req) (argmap : List (String × Arg))
    (req : Req) (targets : List String) (log : List String) :
    Except Exc (Option (List (String × Value))) × List String :=
  match p.parse_loop req targets argmap [] log with
  | (.ok parsed, log') => (.ok (some parsed), log')
  | (.error error, log') => (p.routeError error, log')

/-! ### Exemplar arguments and parsers used by concrete theorems -/

/-- An `Arg()` with every constructor argument left at its default. -/
def defaultArg : Arg :=
  { convert := noop, validate := alwaysTrue, default := .none,
    required := false, multiple := none, allow_missing := false, target := none }

/-- A parser over a unit request whose single registered target `json`
always fetches the given value. -/
def singleFetchParser (v : Value) : Parser Unit :=
  { TARGET_MAP := [("json", fun _ _ _ => v)]
    targets := ["json"]
    error_callback := .none
    handle_error := defaultHandleError
    fallback := defaultFallback }

/-! ### Helper lemmas -/

/-- The fetch log entry contributed by one target: the target name when a
capability is registered for it, nothing otherwise. -/
def regLog {Req : Type} (p : Parser Req) (t : String) : List String :=
  if p.isRegistered t then [t] else []

theorem get_value_eq {Req : Type} (p : Parser Req) (name : String) (argobj : Arg)
    (req : Req) (t : String) (log : List String) :
    p.get_value name argobj req t log = (p.fetchVal req name argobj t, log ++ regLog p t) := by
  unfold Parser.get_value Parser.fetchVal regLog Parser.isRegistered
  cases p.TARGET_MAP.lookup t <;> simp

theorem fetchVal_of_unregistered {Req : Type} (p : Parser Req) (req : Req)
    (name : String) (argobj : Arg) (t : String) (h : p.isRegistered t = false) :
    p.fetchVal req name argobj t = .none := by
  unfold Parser.isRegistered at h
  unfold Parser.fetchVal
  cases hl : p.TARGET_MAP.lookup t with
  | none => rfl
  | some f => rw [hl] at h; simp at h

/-- Whether a fetched value stops the ordered scan for this argument: a
non-empty list when `multiple` is set, any non-`None` value otherwise. -/
def usableFor (a : Arg) (v : Value) : Bool :=
  match a.multiple with
  | some _ => isNonEmptyList v
  | none => !(v == Value.none)

theorem lookup_isSome_eq_contains {β : Type} (l : List (String × β)) (a : String) :
    (l.lookup a).isSome = (l.map Prod.fst).contains a := by
  induction l with
  | nil => rfl
  | cons x xs ih =>
    obtain ⟨k, v⟩ := x
    by_cases h : a = k
    · simp [List.lookup, h]
    · have hbeq : (a == k) = false := by simp [h]
      simp [List.lookup, hbeq, ih, h]

theorem validated_targets_ok {Req : Type} (p : Parser Req) (ts : List String)
    (h : ∀ u ∈ ts, p.isRegistered u = true) :
    p.validated_targets ts = .ok ts := by
  have hfil : ts.filter (fun t => !(p.TARGET_MAP.map Prod.fst).contains t) = [] := by
    rw [List.filter_eq_nil_iff]
    intro u hu
    have hreg := h u hu
    unfold Parser.isRegistered at hreg
    rw [lookup_isSome_eq_contains] at hreg
    intro hc
    rw [hreg] at hc
    simp at hc
  unfold Parser.validated_targets
  simp only [hfil]
  rfl

theorem scan_skip {Req : Type} (p : Parser Req) (name : String) (argobj : Arg)
    (req : Req) (t : String) (rest : List String) (v0 : Value) (log : List String)
    (h : usableFor argobj (p.fetchVal req name argobj t) = false) :
    p.scan name argobj req (t :: rest) v0 log =
      p.scan name argobj req rest (p.fetchVal req name argobj t) (log ++ regLog p t) := by
  cases hm : argobj.multiple with
  | some m =>
    have h1 : isNonEmptyList (p.fetchVal req name argobj t) = false := by
      unfold usableFor at h; rw [hm] at h; exact h
    simp [Parser.scan, get_value_eq, hm, h1]
  | none =>
    have h1 : p.fetchVal req name argobj t = Value.none := by
      unfold usableFor at h; rw [hm] at h; simpa using h
    simp [Parser.scan, get_value_eq, hm, h1]

theorem scan_win {Req : Type} (p : Parser Req) (name : String) (argobj : Arg)
    (req : Req) (t : String) (rest : List String) (v0 : Value) (log : List String)
    (h : usableFor argobj (p.fetchVal req name argobj t) = true) :
    p.scan name argobj req (t :: rest) v0 log =
      ((translateErrors name (argobj.validated (p.fetchVal req name argobj t))).map
        ScanResult.found, log ++ regLog p t) := by
  cases hm : argobj.multiple with
  | some m =>
    have h1 : isNonEmptyList (p.fetchVal req name argobj t) = true := by
      unfold usableFor at h; rw [hm] at h; exact h
    have h2 : p.fetchVal req name argobj t ≠ Value.none := by
      intro hc; rw [hc] at h1; simp [isNonEmptyList] at h1
    simp [Parser.scan, get_value_eq, hm, h1, h2]
  | none =>
    have h2 : p.fetchVal req name argobj t ≠ Value.none := by
      unfold usableFor at h; rw [hm] at h; simpa using h
    simp [Parser.scan, get_value_eq, hm, h2]

theorem scan_exhaust {Req : Type} (p : Parser Req) (name : String) (argobj : Arg)
    (req : Req) : ∀ (ts : List String) (v0 : Value) (log : List String),
    (∀ u ∈ ts, usableFor argobj (p.fetchVal req name argobj u) = false) →
    p.scan name argobj req ts v0 log =
      (.ok (.exhausted (ts.foldl (fun _ u => p.fetchVal req name argobj u) v0)),
       log ++ ts.filter (fun u => p.isRegistered u))
  | [], v0, log, _ => by simp [Parser.scan]
  | t :: rest, v0, log, h => by
    have ht := h t (by simp)
    rw [scan_skip p name argobj req t rest v0 log ht]
    rw [scan_exhaust p name argobj req rest _ _ (fun u hu => h u (by simp [hu]))]
    unfold regLog
    by_cases hr : p.isRegistered t = true
    · simp [hr, List.filter_cons, List.append_assoc]
    · have hr' : p.isRegistered t = false := by simpa using hr
      simp [hr', List.filter_cons]

theorem scan_found_after_skips {Req : Type} (p : Parser Req) (name : String)
    (argobj : Arg) (req : Req) (t : String) (ts2 : List String) :
    ∀ (ts1 : List String) (v0 : Value) (log : List String),
    (∀ u ∈ ts1, usableFor argobj (p.fetchVal req name argobj u) = false) →
    usableFor argobj (p.fetchVal req name argobj t) = true →
    p.scan name argobj req (ts1 ++ t :: ts2) v0 log =
      ((translateErrors name (argobj.validated (p.fetchVal req name argobj t))).map
        ScanResult.found,
       log ++ ts1.filter (fun u => p.isRegistered u) ++ regLog p t)
  | [], v0, log, _, hwin => by
    simpa using scan_win p name argobj req t ts2 v0 log hwin
  | u :: ts1, v0, log, hpre, hwin => by
    have hu := hpre u (by simp)
    rw [List.cons_append, scan_skip p name argobj req u _ v0 log hu]
    rw [scan_found_after_skips p name argobj req t ts2 ts1 _ _
      (fun w hw => hpre w (by simp [hw])) hwin]
    unfold regLog
    by_cases hr : p.isRegistered u = true
    · simp [hr, List.filter_cons, List.append_assoc]
    · have hr' : p.isRegistered u = false := by simpa using hr
      simp [hr', List.filter_cons]

theorem parse_arg_no_pinned {Req : Type} (p : Parser Req) (name : String)
    (argobj : Arg) (req : Req) (targets log : List String)
    (hpin : argobj.target = none) :
    p.parse_arg name argobj req targets log =
      p.parse_arg_scan name argobj req targets Value.none log := by
  unfold Parser.parse_arg Arg.pinned
  rw [hpin]

/-- Every error produced by `Arg._validate` is one of the three name-less
internal errors. -/
theorem run_validate_err_shape (a : Arg) (v : Value) (e : Exc)
    (h : a.run_validate v = .error e) :
    (∃ c, e = .internalConversionError c) ∨ (∃ c, e = .internalValidationError c) ∨
      e = .internalInvalidArg := by
  unfold Arg.run_validate at h
  cases hc : a.convert v with
  | error c =>
    simp only [hc] at h
    exact Or.inl ⟨c, by injection h with h; exact h.symm⟩
  | ok ret =>
    simp only [hc] at h
    cases hv : a.validate ret with
    | error c =>
      simp only [hv] at h
      exact Or.inr (Or.inl ⟨c, by injection h with h; exact h.symm⟩)
    | ok w =>
      simp only [hv] at h
      by_cases hw : w.truthy = true
      · simp [hw] at h
      · have hw' : w.truthy = false := by simpa using hw
        simp [hw'] at h
        exact Or.inr (Or.inr h.symm)

theorem run_validate_list_err_shape (a : Arg) : ∀ (xs : List Value) (e : Exc),
    a.run_validate_list xs = .error e →
    (∃ c, e = .internalConversionError c) ∨ (∃ c, e = .internalValidationError c) ∨
      e = .internalInvalidArg
  | [], e, h => by simp [Arg.run_validate_list] at h
  | x :: xs, e, h => by
    unfold Arg.run_validate_list at h
    cases hx : a.run_validate x with
    | error c =>
      simp only [hx] at h
      injection h with h
      exact run_validate_err_shape a x e (h ▸ hx)
    | ok y =>
      simp only [hx] at h
      cases hxs : a.run_validate_list xs with
      | error c =>
        simp only [hxs] at h
        injection h with h
        exact run_validate_list_err_shape a xs e (h ▸ hxs)
      | ok ys => simp only [hxs] at h; simp at h

theorem validated_err_shape (a : Arg) (v : Value) (e : Exc)
    (h : a.validated v = .error e) :
    (∃ c, e = .internalConversionError c) ∨ (∃ c, e = .internalValidationError c) ∨
      e = .internalInvalidArg := by
  unfold Arg.validated at h
  cases hm : a.multiple with
  | none =>
    simp only [hm] at h
    exact run_validate_err_shape a v e h
  | some m =>
    simp only [hm] at h
    cases v with
    | list xs =>
      cases hxs : a.run_validate_list xs with
      | error c =>
        simp only [hxs] at h
        injection h with h
        exact run_validate_list_err_shape a xs e (h ▸ hxs)
      | ok ys => simp only [hxs] at h; cases m <;> simp at h
    | none => exact run_validate_err_shape a _ e h
    | bool b => exact run_validate_err_shape a _ e h
    | int n => exact run_validate_err_shape a _ e h
    | str s => exact run_validate_err_shape a _ e h
    | vset xs => exact run_validate_err_shape a _ e h

/-- Every error that escapes the `try/except` around `argobj.validated`
in `parse_arg` is one of the three name-attached external errors for this
argument name. -/
theorem translate_validated_err_shape (a : Arg) (name : String) (v : Value) (e : Exc)
    (h : translateErrors name (a.validated v) = .error e) :
    (∃ c, e = .conversionError c name) ∨ (∃ c, e = .validationError c name) ∨
      e = .invalidArg name := by
  unfold translateErrors at h
  cases hv : a.validated v with
  | ok w => rw [hv] at h; simp at h
  | error e0 =>
    rw [hv] at h
    rcases validated_err_shape a v e0 hv with ⟨c, rfl⟩ | ⟨c, rfl⟩ | rfl
    · exact Or.inl ⟨c, by injection h with h; exact h.symm⟩
    · exact Or.inr (Or.inl ⟨c, by injection h with h; exact h.symm⟩)
    · exact Or.inr (Or.inr (by injection h with h; exact h.symm))

/-- A parser over a unit request with a `querystring` and a `json` target
that fetch the two given values, in default priority order
`querystring`, `json`. -/
def qsJsonParser (qv jv : Value) : Parser Unit :=
  { TARGET_MAP := [("querystring", fun _ _ _ => qv), ("json", fun _ _ _ => jv)]
    targets := ["querystring", "json"]
    error_callback := .none
    handle_error := defaultHandleError
    fallback := defaultFallback }

/-- An `Arg(target='querystring')`: pinned to the querystring target. -/
def pinnedQSArg : Arg := { defaultArg with target := some "querystring" }

/-! ### Claims -/

/-- C1 is false as stated: for an `Arg` pinned to `querystring` whose
pinned fetch returns null, `parse_arg` does not skip the ordered scan —
it falls through, invokes the `json` target's fetch capability (visible
in the invocation log) and returns the json value. -/
theorem C1_counterexample :
    pinnedQSArg.target = some "querystring" ∧
    (qsJsonParser .none (.str "from json")).parse_arg "x" pinnedQSArg () [] [] =
      (.ok (.str "from json"), ["querystring", "querystring", "json"]) := by
  exact ⟨rfl, rfl⟩

/-- C1 (amended): when the pinned fetch returns a non-null value,
`parse_arg` queries only the pinned target — the ordered scan and the
default/fallback logic are bypassed, and no other fetch capability is
invoked (the log grows by the pinned target alone); when the pinned fetch
returns null, resolution falls through to the ordered target scan. -/
theorem C1_pinned_target_resolution {Req : Type} (p : Parser Req) (req : Req)
    (name : String) (argobj : Arg) (t : String) (targets log : List String)
    (hpin : argobj.target = some t) (ht : t.isEmpty = false) :
    (p.fetchVal req name argobj t ≠ Value.none →
      p.parse_arg name argobj req targets log =
        (translateErrors name (argobj.validated (p.fetchVal req name argobj t)),
         log ++ [t])) ∧
    (p.fetchVal req name argobj t = Value.none →
      p.parse_arg name argobj req targets log =
        p.parse_arg_scan name argobj req targets Value.none (log ++ regLog p t)) := by
  have hpn : argobj.pinned = some t := by
    unfold Arg.pinned; rw [hpin]; simp [ht]
  constructor
  · intro hv
    have hrl : regLog p t = [t] := by
      unfold regLog
      by_cases hr : p.isRegistered t = true
      · simp [hr]
      · exact absurd (fetchVal_of_unregistered p req name argobj t (by simpa using hr)) hv
    unfold Parser.parse_arg
    rw [hpn]
    simp [get_value_eq, hv, hrl]
  · intro hv
    unfold Parser.parse_arg
    rw [hpn]
    simp [get_value_eq, hv]

theorem C1_pinned_target_resolution_witness :
    pinnedQSArg.target = some "querystring" ∧
    (qsJsonParser (.str "Q") (.str "J")).parse_arg "x" pinnedQSArg () [] [] =
      (.ok (.str "Q"), ["querystring"]) := by
  refine ⟨rfl, ?_⟩
  have h := (C1_pinned_target_resolution (qsJsonParser (.str "Q") (.str "J")) ()
    "x" pinnedQSArg "querystring" [] [] rfl rfl).1 (by decide)
  rw [h]
  rfl

/-- C2 (code bug): requesting the unregistered target `bogus` makes
`_validated_targets` evaluate `WebargsValueError(msg)`; since
`WebargsValueError.__init__(self, arg, msg)` takes two required
arguments, Python raises `TypeError` at that call, not the intended
`WebargsValueError` listing the offending names.  The error is still
raised before any fetch capability is invoked: the invocation log stays
empty. -/
theorem C2_invalid_target_raises_typeerror :
    baseParser.parse_arg "x" defaultArg () ["bogus"] [] =
      (.error (.typeError
        "WebargsValueError.__init__ missing 1 required positional argument: msg"), []) ∧
    ∀ a m, Exc.typeError
        "WebargsValueError.__init__ missing 1 required positional argument: msg" ≠
      Exc.webargsValueError a m := by
  exact ⟨rfl, fun a m h => Exc.noConfusion h⟩

/-- Shared backbone of the ordered-scan claims: with no pinned target,
all-unusable fetches on a prefix and a usable fetch at the next target,
`parse_arg` returns that target's converted + validated value and the log
stops at the winning target. -/
theorem parse_arg_first_usable {Req : Type} (p : Parser Req) (req : Req)
    (name : String) (argobj : Arg) (ts1 ts2 : List String) (t : String)
    (log : List String)
    (hpin : argobj.target = none)
    (hreg : ∀ u ∈ ts1 ++ t :: ts2, p.isRegistered u = true)
    (hpre : ∀ u ∈ ts1, usableFor argobj (p.fetchVal req name argobj u) = false)
    (hwin : usableFor argobj (p.fetchVal req name argobj t) = true) :
    p.parse_arg name argobj req (ts1 ++ t :: ts2) log =
      (translateErrors name (argobj.validated (p.fetchVal req name argobj t)),
       log ++ ts1 ++ [t]) := by
  rw [parse_arg_no_pinned p name argobj req _ log hpin]
  unfold Parser.parse_arg_scan
  have hne : (ts1 ++ t :: ts2).isEmpty = false := by
    cases ts1 <;> rfl
  rw [hne]
  simp only [Bool.false_eq_true, if_false]
  rw [validated_targets_ok p _ hreg]
  have hsc := scan_found_after_skips p name argobj req t ts2 ts1 Value.none log hpre hwin
  have hfil : ts1.filter (fun u => p.isRegistered u) = ts1 :=
    List.filter_eq_self.mpr (fun u hu => hreg u (List.mem_append_left _ hu))
  have hrl : regLog p t = [t] := by
    unfold regLog
    rw [hreg t (List.mem_append_right _ (List.mem_cons_self t ts2))]
    rfl
  rw [hfil, hrl] at hsc
  cases htr : translateErrors name (argobj.validated (p.fetchVal req name argobj t)) with
  | ok w => simp [hsc, htr, Except.map, List.append_assoc]
  | error e => simp [hsc, htr, Except.map, List.append_assoc]

/-- C3: during the ordered scan (no pinned target), the first target
whose fetch returns a usable value wins: its value is converted,
validated and returned, and the fetch capabilities of all targets after
it are never invoked — the invocation log is exactly the scanned prefix
followed by the winning target. -/
theorem C3_first_usable_target_wins {Req : Type} (p : Parser Req) (req : Req)
    (name : String) (argobj : Arg) (ts1 ts2 : List String) (t : String)
    (log : List String)
    (hpin : argobj.target = none)
    (hreg : ∀ u ∈ ts1 ++ t :: ts2, p.isRegistered u = true)
    (hpre : ∀ u ∈ ts1, usableFor argobj (p.fetchVal req name argobj u) = false)
    (hwin : usableFor argobj (p.fetchVal req name argobj t) = true) :
    p.parse_arg name argobj req (ts1 ++ t :: ts2) log =
      (translateErrors name (argobj.validated (p.fetchVal req name argobj t)),
       log ++ ts1 ++ [t]) :=
  parse_arg_first_usable p req name argobj ts1 ts2 t log hpin hreg hpre hwin

theorem C3_first_usable_target_wins_witness :
    (qsJsonParser (.str "Q") (.str "J")).parse_arg "x" defaultArg ()
        ["querystring", "json"] [] = (.ok (.str "Q"), ["querystring"]) ∧
    (qsJsonParser .none (.str "J")).parse_arg "x" defaultArg ()
        ["querystring", "json"] [] = (.ok (.str "J"), ["querystring", "json"]) := by
  constructor
  · have h := C3_first_usable_target_wins (qsJsonParser (.str "Q") (.str "J")) ()
      "x" defaultArg [] ["json"] "querystring" [] rfl (by decide) (by decide) (by decide)
    rw [show ["querystring", "json"] = [] ++ "querystring" :: ["json"] from rfl, h]
    rfl
  · have h := C3_first_usable_target_wins (qsJsonParser .none (.str "J")) ()
      "x" defaultArg ["querystring"] [] "json" [] rfl (by decide) (by decide) (by decide)
    rw [show ["querystring", "json"] = ["querystring"] ++ "json" :: [] from rfl, h]
    rfl

/-- A parser over a unit request whose single registered target
`querystring` always fetches the given value. -/
def qsFetchParser (v : Value) : Parser Unit :=
  { TARGET_MAP := [("querystring", fun _ _ _ => v)]
    targets := ["querystring"]
    error_callback := .none
    handle_error := defaultHandleError
    fallback := defaultFallback }

/-- An `Arg(multiple=list, default=[1])`. -/
def multiListArg : Arg :=
  { defaultArg with multiple := some .list, default := .list [.int 1] }

/-- An unusable multi-value fetch never matches `Value.none`. -/
theorem usableFor_none (a : Arg) : usableFor a Value.none = false := by
  unfold usableFor
  cases a.multiple <;> rfl

theorem foldl_last_none (f : String → Value) : ∀ (ts : List String),
    (∀ u ∈ ts, f u = Value.none) →
    ts.foldl (fun _ u => f u) Value.none = Value.none
  | [], _ => rfl
  | t :: ts, h => by
    simp only [List.foldl_cons]
    rw [h t (List.mem_cons_self t ts)]
    exact foldl_last_none f ts (fun u hu => h u (List.mem_cons_of_mem t hu))

/-- C4 is false as stated: with `multiple=list` and the explicit non-null
default `[1]`, a single target fetching the non-sequence value `"x"`
yields no usable value (the scan continues past it), yet `parse_arg`
returns the raw `"x"` unvalidated — neither the non-null default nor the
fallback (which returns null) becomes the final value. -/
theorem C4_counterexample :
    (qsFetchParser (.str "x")).parse_arg "a" multiListArg () [] [] =
      (.ok (.str "x"), ["querystring"]) ∧
    multiListArg.default = .list [.int 1] ∧
    (qsFetchParser (.str "x")).fallback () "a" multiListArg = .none ∧
    Value.str "x" ≠ .list [.int 1] ∧
    Value.str "x" ≠ .none := by
  exact ⟨rfl, rfl, rfl, fun h => Value.noConfusion h, fun h => Value.noConfusion h⟩

/-- An `Arg(multiple=list, default=[1], required=True)`. -/
def multiListReqArg : Arg :=
  { defaultArg with
    multiple := some .list
    default := .list [.int 1]
    required := true }

/-- C4 (amended): when no scanned target yields a usable value, the
default / fallback step applies only if the *last* fetched value was
null: then (for a non-required argument) the final value is
`spec.default` when non-null and otherwise the fallback result (possibly
still null).  But when the last scanned target returned a non-null
unusable value (an empty or non-sequence multi-value result), that raw
value is returned as-is — whatever `required` is — bypassing default,
fallback, validation and the required check: no `MissingArg` can be
raised on that path. -/
theorem C4_default_fallback_on_none {Req : Type} (p : Parser Req) (req : Req)
    (name : String) (argobj : Arg) (ts1 : List String) (tl : String)
    (log : List String)
    (hpin : argobj.target = none)
    (hreg : ∀ u ∈ ts1 ++ [tl], p.isRegistered u = true)
    (hun : ∀ u ∈ ts1 ++ [tl], usableFor argobj (p.fetchVal req name argobj u) = false) :
    (p.fetchVal req name argobj tl = Value.none → argobj.required = false →
      p.parse_arg name argobj req (ts1 ++ [tl]) log =
        (.ok (if argobj.default = Value.none then p.fallback req name argobj
              else argobj.default), log ++ ts1 ++ [tl])) ∧
    (p.fetchVal req name argobj tl ≠ Value.none →
      p.parse_arg name argobj req (ts1 ++ [tl]) log =
        (.ok (p.fetchVal req name argobj tl), log ++ ts1 ++ [tl])) ∧
    (p.fetchVal req name argobj tl ≠ Value.none →
      ∀ s, (p.parse_arg name argobj req (ts1 ++ [tl]) log).1 ≠
        .error (.missingArg s)) := by
  have hne : (ts1 ++ [tl]).isEmpty = false := by cases ts1 <;> rfl
  have hsc := scan_exhaust p name argobj req (ts1 ++ [tl]) Value.none log hun
  have hfil : (ts1 ++ [tl]).filter (fun u => p.isRegistered u) = ts1 ++ [tl] :=
    List.filter_eq_self.mpr hreg
  have hfold : (ts1 ++ [tl]).foldl (fun _ u => p.fetchVal req name argobj u) Value.none
      = p.fetchVal req name argobj tl := by
    rw [List.foldl_append]
    rfl
  rw [hfil, hfold] at hsc
  have hraw : p.fetchVal req name argobj tl ≠ Value.none →
      p.parse_arg name argobj req (ts1 ++ [tl]) log =
        (.ok (p.fetchVal req name argobj tl), log ++ ts1 ++ [tl]) := by
    intro hv
    rw [parse_arg_no_pinned p name argobj req _ log hpin]
    unfold Parser.parse_arg_scan
    rw [hne]
    simp only [Bool.false_eq_true, if_false]
    rw [validated_targets_ok p _ hreg]
    simp [hsc, hv, List.append_assoc]
  refine ⟨?_, hraw, ?_⟩
  · intro hv hreqf
    rw [hv] at hsc
    rw [parse_arg_no_pinned p name argobj req _ log hpin]
    unfold Parser.parse_arg_scan
    rw [hne]
    simp only [Bool.false_eq_true, if_false]
    rw [validated_targets_ok p _ hreg]
    simp [hsc, hreqf, List.append_assoc]
  · intro hv s hcontra
    rw [hraw hv] at hcontra
    simp at hcontra

theorem C4_default_fallback_on_none_witness :
    (qsFetchParser .none).parse_arg "a" multiListArg () ["querystring"] [] =
      (.ok (.list [.int 1]), ["querystring"]) ∧
    (qsFetchParser (.list [])).parse_arg "a" multiListArg () ["querystring"] [] =
      (.ok (.list []), ["querystring"]) ∧
    multiListReqArg.required = true ∧
    (qsFetchParser (.list [])).parse_arg "a" multiListReqArg () ["querystring"] [] =
      (.ok (.list []), ["querystring"]) := by
  refine ⟨?_, ?_, rfl, ?_⟩
  · have h := (C4_default_fallback_on_none (qsFetchParser .none) () "a" multiListArg
      [] "querystring" [] rfl (by decide) (by decide)).1 rfl rfl
    rw [show (["querystring"] : List String) = [] ++ ["querystring"] from rfl, h]
    rfl
  · have h := (C4_default_fallback_on_none (qsFetchParser (.list [])) () "a" multiListArg
      [] "querystring" [] rfl (by decide) (by decide)).2.1
      (fun hc => Value.noConfusion hc)
    rw [show (["querystring"] : List String) = [] ++ ["querystring"] from rfl, h]
    rfl
  · have h := (C4_default_fallback_on_none (qsFetchParser (.list [])) () "a"
      multiListReqArg [] "querystring" [] rfl (by decide) (by decide)).2.1
      (fun hc => Value.noConfusion hc)
    rw [show (["querystring"] : List String) = [] ++ ["querystring"] from rfl, h]
    rfl

/-- Lemma: `Arg.validated` is plain `_validate` whenever `multiple` is unset. -/
theorem validated_multiple_none (a : Arg) (v : Value) (hm : a.multiple = none) :
    a.validated v = a.run_validate v := by
  cases v <;> simp [Arg.validated, hm]

/-- C5: the caller of `parse_arg` only ever sees the name-attached
external errors: an exception raised by `convert` surfaces as
`ConversionError(cause, name)`, an exception raised by `validate` as
`ValidationError(cause, name)`, a falsy `validate` result as
`InvalidArg(name)`; the raw exception and the name-less internal error
classes never escape. -/
theorem C5_error_translation (argobj : Arg) (name : String) (v : Value)
    (hpin : argobj.target = none) (hm : argobj.multiple = none)
    (hv : v ≠ Value.none) :
    (∀ e, argobj.convert v = .error e →
      ((singleFetchParser v).parse_arg name argobj () ["json"] []).1 =
        .error (.conversionError e name)) ∧
    (∀ w e, argobj.convert v = .ok w → argobj.validate w = .error e →
      ((singleFetchParser v).parse_arg name argobj () ["json"] []).1 =
        .error (.validationError e name)) ∧
    (∀ w b, argobj.convert v = .ok w → argobj.validate w = .ok b →
        b.truthy = false →
      ((singleFetchParser v).parse_arg name argobj () ["json"] []).1 =
        .error (.invalidArg name)) ∧
    (∀ e, ((singleFetchParser v).parse_arg name argobj () ["json"] []).1 = .error e →
      (∃ c, e = .conversionError c name) ∨ (∃ c, e = .validationError c name) ∨
        e = .invalidArg name) := by
  have husable : usableFor argobj ((singleFetchParser v).fetchVal () name argobj "json")
      = true := by
    show usableFor argobj v = true
    unfold usableFor
    rw [hm]
    simpa using hv
  have hmain := parse_arg_first_usable (singleFetchParser v) () name argobj
    [] [] "json" [] hpin
    (by intro u hu; simp at hu; subst hu; rfl) (by simp) husable
  have hmain' : (singleFetchParser v).parse_arg name argobj () ["json"] [] =
      (translateErrors name (argobj.validated v), ["json"]) := hmain
  refine ⟨?_, ?_, ?_, ?_⟩
  · intro e he
    rw [hmain']
    show translateErrors name (argobj.validated v) = _
    rw [validated_multiple_none argobj v hm]
    unfold Arg.run_validate
    simp only [he]
    rfl
  · intro w e hc hv2
    rw [hmain']
    show translateErrors name (argobj.validated v) = _
    rw [validated_multiple_none argobj v hm]
    unfold Arg.run_validate
    simp only [hc, hv2]
    rfl
  · intro w b hc hv2 hb
    rw [hmain']
    show translateErrors name (argobj.validated v) = _
    rw [validated_multiple_none argobj v hm]
    unfold Arg.run_validate
    simp only [hc, hv2, hb, Bool.false_eq_true, if_false]
    rfl
  · intro e he
    rw [hmain'] at he
    replace he : translateErrors name (argobj.validated v) = .error e := he
    exact translate_validated_err_shape argobj name v e he

/-- An `Arg(convert=...)` whose conversion always raises. -/
def boomArg : Arg :=
  { defaultArg with convert := fun _ => .error (.userError (.str "boom")) }

theorem C5_error_translation_witness :
    ((singleFetchParser (.str "1")).parse_arg "n" boomArg () ["json"] []).1 =
      .error (.conversionError (.userError (.str "boom")) "n") := by
  exact (C5_error_translation boomArg "n" (.str "1") rfl rfl
    (fun h => Value.noConfusion h)).1 (.userError (.str "boom")) rfl

/-- An `Arg(required=True)` with every other parameter at its default. -/
def requiredArg : Arg := { defaultArg with required := true }

/-- C8: with no pinned target, when every scanned target's fetch returns
null, the final value comes from the default / fallback step; whenever
that final value is falsy and `required` is true, `parse_arg` raises
`MissingArg(name)` — in particular for a required argument with no
explicit default when the fallback also returns null. -/
theorem C8_required_falsy_missing {Req : Type} (p : Parser Req) (req : Req)
    (name : String) (argobj : Arg) (targets log : List String)
    (hpin : argobj.target = none)
    (hne : targets.isEmpty = false)
    (hreg : ∀ u ∈ targets, p.isRegistered u = true)
    (hnone : ∀ u ∈ targets, p.fetchVal req name argobj u = Value.none)
    (hreqd : argobj.required = true)
    (hfalsy : (if argobj.default = Value.none then p.fallback req name argobj
               else argobj.default).truthy = false) :
    p.parse_arg name argobj req targets log =
      (.error (.missingArg name), log ++ targets) := by
  have hun : ∀ u ∈ targets, usableFor argobj (p.fetchVal req name argobj u) = false := by
    intro u hu
    rw [hnone u hu]
    exact usableFor_none argobj
  have hsc := scan_exhaust p name argobj req targets Value.none log hun
  rw [List.filter_eq_self.mpr hreg,
    foldl_last_none (p.fetchVal req name argobj) targets hnone] at hsc
  rw [parse_arg_no_pinned p name argobj req targets log hpin]
  unfold Parser.parse_arg_scan
  rw [hne]
  simp only [Bool.false_eq_true, if_false]
  rw [validated_targets_ok p _ hreg]
  simp [hsc, hreqd, hfalsy]

theorem C8_required_falsy_missing_witness :
    baseParser.parse_arg "r" requiredArg () ["querystring", "form", "json"] [] =
      (.error (.missingArg "r"), ["querystring", "form", "json"]) := by
  exact C8_required_falsy_missing baseParser () "r" requiredArg
    ["querystring", "form", "json"] [] rfl rfl (by decide) (by decide) rfl rfl

/-- C9: the falsy-value required check never applies to values found at a
target: a non-null falsy value (for example `""`) found during the scan
is converted, validated and returned, and `parse_arg` never raises
`MissingArg` on that path. -/
theorem C9_found_falsy_not_missing {Req : Type} (p : Parser Req) (req : Req)
    (name : String) (argobj : Arg) (ts1 ts2 : List String) (t : String)
    (log : List String)
    (hpin : argobj.target = none)
    (hm : argobj.multiple = none)
    (hreqd : argobj.required = true)
    (hreg : ∀ u ∈ ts1 ++ t :: ts2, p.isRegistered u = true)
    (hpre : ∀ u ∈ ts1, p.fetchVal req name argobj u = Value.none)
    (hv : p.fetchVal req name argobj t ≠ Value.none)
    (hfalsy : (p.fetchVal req name argobj t).truthy = false) :
    p.parse_arg name argobj req (ts1 ++ t :: ts2) log =
      (translateErrors name (argobj.validated (p.fetchVal req name argobj t)),
       log ++ ts1 ++ [t]) ∧
    ∀ s, (p.parse_arg name argobj req (ts1 ++ t :: ts2) log).1 ≠
      .error (.missingArg s) := by
  have hwin : usableFor argobj (p.fetchVal req name argobj t) = true := by
    unfold usableFor
    rw [hm]
    simpa using hv
  have hfirst := parse_arg_first_usable p req name argobj ts1 ts2 t log hpin hreg
    (fun u hu => by rw [hpre u hu]; exact usableFor_none argobj) hwin
  refine ⟨hfirst, ?_⟩
  intro s hcontra
  rw [hfirst] at hcontra
  replace hcontra : translateErrors name
      (argobj.validated (p.fetchVal req name argobj t)) = .error (.missingArg s) :=
    hcontra
  rcases translate_validated_err_shape argobj name _ _ hcontra with
    ⟨c, hc⟩ | ⟨c, hc⟩ | hc <;> exact Exc.noConfusion hc

theorem C9_found_falsy_not_missing_witness :
    (qsFetchParser (.str "")).parse_arg "q" requiredArg () ["querystring"] [] =
      (.ok (.str ""), ["querystring"]) := by
  have h := (C9_found_falsy_not_missing (qsFetchParser (.str "")) () "q" requiredArg
    [] [] "querystring" [] rfl rfl rfl (by decide) (by decide)
    (fun hc => Value.noConfusion hc) rfl).1
  rw [show (["querystring"] : List String) = [] ++ "querystring" :: [] from rfl, h]
  rfl

/-- C6: batch resolution is atomic: the first argument whose resolution
raises aborts `parse` immediately — the remaining arguments are never
attempted (the result and log do not depend on them and the log stops
after the failing argument) — and the error is routed to the registered
error callback if any, else to `handle_error`; the caller never receives
a mapping on this path, and with the default `handle_error` the error is
re-raised. -/
theorem C6_parse_atomic {Req : Type} (p : Parser Req) (req : Req) (a : String)
    (specA : Arg) (rest : List (String × Arg)) (targets log : List String)
    (e : Exc) (log' : List String)
    (hfail : p.parse_arg a specA req (if targets.isEmpty then p.targets else targets) log
      = (.error e, log')) :
    p.parse ((a, specA) :: rest) req targets log = (p.routeError e, log') ∧
    (∀ m, p.routeError e ≠ .ok (some m)) ∧
    (p.error_callback = none → p.handle_error = defaultHandleError →
      p.parse ((a, specA) :: rest) req targets log = (.error e, log')) := by
  have hloop : p.parse_loop req targets ((a, specA) :: rest) [] log = (.error e, log') := by
    unfold Parser.parse_loop
    simp only [hfail]
  have hparse : p.parse ((a, specA) :: rest) req targets log = (p.routeError e, log') := by
    unfold Parser.parse
    simp only [hloop]
  refine ⟨hparse, ?_, ?_⟩
  · intro m
    unfold Parser.routeError
    cases hcb : p.error_callback with
    | some cb =>
      cases hcbe : cb e with
      | ok u => simp [hcbe]
      | error e2 => simp [hcbe]
    | none =>
      cases hhe : p.handle_error e with
      | ok u => simp [hhe]
      | error e2 => simp [hhe]
  · intro hcb hhe
    rw [hparse]
    unfold Parser.routeError
    rw [hcb, hhe]
    rfl

theorem C6_parse_atomic_witness :
    baseParser.parse [("a", requiredArg), ("b", defaultArg)] () [] [] =
      (.error (.missingArg "a"), ["querystring", "form", "json"]) := by
  exact (C6_parse_atomic baseParser () "a" requiredArg [("b", defaultArg)] [] []
    (.missingArg "a") ["querystring", "form", "json"] rfl).2.2 rfl rfl

/-- An `Arg(multiple=set)` (its default is the empty set `set()`). -/
def multiSetArg : Arg :=
  { defaultArg with multiple := some .set, default := .vset [] }

/-- C7: with `multiple=list`, `validated([a, b])` converts and validates
element-wise and returns the list `[convert(a), convert(b)]` in encounter
order; with `multiple=set` it returns the set of the converted elements,
collapsing duplicates; the result container kind is the declared one. -/
theorem C7_multiplicity_containers (a : Arg) (x y cx cy bx bv : Value)
    (hcx : a.convert x = .ok cx) (hcy : a.convert y = .ok cy)
    (hvx : a.validate cx = .ok bx) (hbx : bx.truthy = true)
    (hvy : a.validate cy = .ok bv) (hby : bv.truthy = true) :
    (a.multiple = some .list → a.validated (.list [x, y]) = .ok (.list [cx, cy])) ∧
    (a.multiple = some .set →
      a.validated (.list [x, y]) = .ok (.vset ([cx, cy].dedup))) ∧
    (a.multiple = some .set → cx = cy →
      a.validated (.list [x, y]) = .ok (.vset [cy])) := by
  have hx : a.run_validate x = .ok cx := by
    simp [Arg.run_validate, hcx, hvx, hbx]
  have hy : a.run_validate y = .ok cy := by
    simp [Arg.run_validate, hcy, hvy, hby]
  have hrv : a.run_validate_list [x, y] = .ok [cx, cy] := by
    simp [Arg.run_validate_list, hx, hy]
  refine ⟨?_, ?_, ?_⟩
  · intro hm
    simp [Arg.validated, hm, hrv]
  · intro hm
    simp [Arg.validated, hm, hrv]
  · intro hm hcc
    subst hcc
    have hd : List.dedup [cx, cx] = [cx] := by
      rw [List.dedup_cons_of_mem (List.mem_singleton.mpr rfl)]
      rw [List.dedup_cons_of_not_mem (List.not_mem_nil cx)]
      rfl
    simp [Arg.validated, hm, hrv, hd]

theorem C7_multiplicity_containers_witness :
    multiListArg.validated (.list [.int 1, .int 2]) = .ok (.list [.int 1, .int 2]) ∧
    multiSetArg.validated (.list [.int 1, .int 1]) = .ok (.vset [.int 1]) := by
  constructor
  · exact (C7_multiplicity_containers multiListArg (.int 1) (.int 2) (.int 1) (.int 2)
      (.bool true) (.bool true) rfl rfl rfl rfl rfl rfl).1 rfl
  · exact (C7_multiplicity_containers multiSetArg (.int 1) (.int 1) (.int 1) (.int 1)
      (.bool true) (.bool true) rfl rfl rfl rfl rfl rfl).2.2 rfl rfl

/-- C10: when resolving any argument raises and a registered error
callback returns without re-raising, `parse` returns Python `None`
(`Option.none`) — the caller never receives any mapping, partial or
empty, on the error path. -/
theorem C10_swallowed_error_returns_none {Req : Type} (p : Parser Req)
    (argmap : List (String × Arg)) (req : Req) (targets log : List String)
    (e : Exc) (log' : List String) (cb : Exc → Except Exc Unit)
    (hloop : p.parse_loop req targets argmap [] log = (.error e, log'))
    (hcb : p.error_callback = some cb) (hok : cb e = .ok ()) :
    p.parse argmap req targets log = (.ok .none, log') ∧
    ∀ m l2, p.parse argmap req targets log ≠ (.ok (some m), l2) := by
  have hparse : p.parse argmap req targets log = (p.routeError e, log') := by
    unfold Parser.parse
    simp only [hloop]
  have hroute : p.routeError e = .ok .none := by
    unfold Parser.routeError
    rw [hcb]
    simp [hok]
  refine ⟨by rw [hparse, hroute], ?_⟩
  intro m l2 hcontra
  rw [hparse, hroute] at hcontra
  simp at hcontra

/-- A base parser whose registered error callback swallows every error. -/
def swallowParser : Parser Unit :=
  { baseParser with error_callback := some (fun _ => .ok ()) }

theorem C10_swallowed_error_returns_none_witness :
    swallowParser.parse [("a", requiredArg), ("b", defaultArg)] () [] [] =
      (.ok .none, ["querystring", "form", "json"]) := by
  exact (C10_swallowed_error_returns_none swallowParser
    [("a", requiredArg), ("b", defaultArg)] () [] [] (.missingArg "a")
    ["querystring", "form", "json"] (fun _ => .ok ()) rfl rfl rfl).1

end Webargs
